import Mathlib

/-!
Verification of the bootstrap-gate / request-pipeline server module

Shallow embedding of `server/index.ts` (the Express bootstrap gate, the
response logger, the error-translation middleware and the runtime-mode
wiring) together with proofs of the specification claims.

Modelling conventions:
* JavaScript values that can be passed to `res.json` are modelled by the
  inductive `JsValue` (undefined, null, booleans, numbers, strings,
  BigInt, arrays, objects).  Numbers are modelled as `Int`.
* Strings are Lean `String`s, i.e. sequences of Unicode scalar values.
  JavaScript's `String.prototype.length` and `slice` count UTF-16 code
  units; on the texts relevant here the two notions of length coincide
  character-for-character (the one string literal in the file that is not
  ASCII, the truncation marker, consists of three BMP characters, which
  are three UTF-16 units as well).
* A JavaScript exception is modelled by `Except.error`; `JSON.stringify`
  throws a `TypeError` on BigInt input, which the embedding reflects.
* The asynchronous bootstrap gate of the module is modelled as a
  small-step transition system on a system state (`Sys`, `Step`): the
  single initialization promise is the single-assignment `InitState`
  field, and each in-flight request is a `ReqPhase` tracked by id.
-/

mutual
/-- A JavaScript value, as far as the module can observe one.  Arrays and
objects are given by mutually inductive spines so that all functions on
them are structurally recursive (and hence reduce definitionally). -/
inductive JsValue where
  | undefined : JsValue
  | null : JsValue
  | bool (b : Bool) : JsValue
  | num (n : Int) : JsValue
  | str (s : String) : JsValue
  | bigint (n : Int) : JsValue
  | arr (es : JsArr) : JsValue
  | obj (ps : JsProps) : JsValue

/-- Spine of a JavaScript array. -/
inductive JsArr where
  | nil : JsArr
  | cons (v : JsValue) (rest : JsArr) : JsArr

/-- Spine of a JavaScript object: ordered key/value properties. -/
inductive JsProps where
  | nil : JsProps
  | cons (k : String) (v : JsValue) (rest : JsProps) : JsProps
end

/-- JavaScript truthiness: `undefined`, `null`, `false`, `0`, `0n` and the
empty string are falsy; every other value (including every array and
object) is truthy.  This is the semantics of `if (capturedJsonResponse)`
in the response logger. -/
def truthy : JsValue → Bool
  | .undefined => false
  | .null => false
  | .bool b => b
  | .num n => n != 0
  | .str s => s != ""
  | .bigint n => n != 0
  | .arr _ => true
  | .obj _ => true

/-- Escape of a single character inside a JSON string literal, as
`JSON.stringify` produces it for the characters appearing in this
development. -/
def jsonEscapeChar (c : Char) : String :=
  if c = '"' then "\\\""
  else if c = '\\' then "\\\\"
  else if c = '\n' then "\\n"
  else if c = '\r' then "\\r"
  else if c = '\t' then "\\t"
  else String.mk [c]

/-- A JSON string literal: quotes around the escaped characters. -/
def jsonQuote (s : String) : String :=
  "\"" ++ String.join (s.data.map jsonEscapeChar) ++ "\""

mutual
/-- Model of `JSON.stringify`.  Returns `Except.error` exactly where the real
function throws (`TypeError` on BigInt), and `Except.ok none` where it
returns JavaScript `undefined` (top-level `undefined`).  Inside arrays an
`undefined` element prints as `null`; inside objects a property whose
value stringifies to `undefined` is dropped. -/
def jsonStringify : JsValue → Except String (Option String)
  | .undefined => .ok none
  | .null => .ok (some "null")
  | .bool b => .ok (some (cond b "true" "false"))
  | .num n => .ok (some (toString n))
  | .str s => .ok (some (jsonQuote s))
  | .bigint _ => .error "TypeError: Do not know how to serialize a BigInt"
  | .arr es => do
      let parts ← jsonStringifyArr es
      .ok (some ("[" ++ String.intercalate "," parts ++ "]"))
  | .obj ps => do
      let parts ← jsonStringifyProps ps
      .ok (some ("\x7b" ++ String.intercalate "," parts ++ "\x7d"))

def jsonStringifyArr : JsArr → Except String (List String)
  | .nil => .ok []
  | .cons v rest => do
      let r ← jsonStringify v
      let rs ← jsonStringifyArr rest
      .ok ((r.getD "null") :: rs)

def jsonStringifyProps : JsProps → Except String (List String)
  | .nil => .ok []
  | .cons k v rest => do
      let r ← jsonStringify v
      let rs ← jsonStringifyProps rest
      match r with
      | none => .ok rs
      | some sv => .ok ((jsonQuote k ++ ":" ++ sv) :: rs)
end

/-- JavaScript `s.startsWith(pre)`, on Unicode scalar sequences.
(Defined on the character lists so that it reduces definitionally;
`String.startsWith` of the core library is compiled by well-founded
recursion and does not.) -/
def jsStartsWith (s pre : String) : Bool :=
  s.data.take pre.data.length == pre.data

/-- The truncation marker string literal of `server/index.ts`.  In the
file on disk the bytes are `c3 a2 e2 82 ac c2 a6`, i.e. the THREE
characters `â`, `€`, `¦` (a double-encoded ellipsis), not the single
character `…` that the sibling copies of this middleware use. -/
def truncMarker : String := "â€¦"

/-- The length check: `if (logLine.length > 80) logLine = logLine.slice(0, 79) + marker`. -/
def truncateLine (logLine : String) : String :=
  if logLine.length > 80 then String.mk (logLine.data.take 79) ++ truncMarker
  else logLine

/-- The raw log line before the length check: the base part
`METHOD PATH STATUS in DURATIONms`, extended with
` :: JSON.stringify(captured)` when the captured body is truthy.
Propagates the `JSON.stringify` exception. -/
def buildLine (method path : String) (statusCode : Int) (duration : Nat)
    (captured : JsValue) : Except String String :=
  let base := method ++ " " ++ path ++ " " ++ toString statusCode ++
    " in " ++ toString duration ++ "ms"
  if truthy captured then
    match jsonStringify captured with
    | .ok s => .ok (base ++ " :: " ++ s.getD "undefined")
    | .error err => .error err
  else
    .ok base

/-- The `finish` handler of the response-logger middleware: given the
request data and the last captured JSON body (initially `undefined`), the
list of log lines it emits.  Non-`/api` paths emit nothing; `/api` paths
emit the (possibly truncated) line, unless `JSON.stringify` throws, in
which case the handler itself throws and nothing is emitted. -/
def finishHandler (method path : String) (statusCode : Int) (duration : Nat)
    (captured : JsValue) : Except String (List String) :=
  if jsStartsWith path "/api" then
    match buildLine method path statusCode duration captured with
    | .ok raw => .ok [truncateLine raw]
    | .error err => .error err
  else
    .ok []

/-!
The response object and the `res.json` wrapper

The logger middleware rebinds `res.json`:
```
const originalResJson = res.json.bind(res);
res.json = function (bodyJson, ...args) {
  capturedJsonResponse = bodyJson;
  return originalResJson(bodyJson, ...args);
};
```
`Resp` records the client-visible state of a response: its status code
and the stream of emission calls (body plus extra arguments) that have
reached the original `res.json`.  Express's `res.json` returns the
response object itself, so the model's emission functions return the
updated `Resp`.
-/

/-- Client-visible response state. -/
structure Resp where
  statusCode : Int := 200
  sent : List (JsValue × List JsValue) := []

/-- The original `res.json` (before wrapping): emits the body (with any
extra arguments) to the client and returns the response. -/
def originalResJson (r : Resp) (bodyJson : JsValue) (args : List JsValue) :
    Resp :=
  { r with sent := r.sent ++ [(bodyJson, args)] }

/-- Per-request state of the logger middleware: the
`capturedJsonResponse` variable, initially JavaScript `undefined`. -/
structure LogCtx where
  capturedJsonResponse : JsValue := .undefined

/-- The wrapped `res.json`: records the body in `capturedJsonResponse`
and then delegates to the original `res.json`, returning its result. -/
def wrappedResJson (ctx : LogCtx) (r : Resp) (bodyJson : JsValue)
    (args : List JsValue) : LogCtx × Resp :=
  ({ ctx with capturedJsonResponse := bodyJson },
   originalResJson r bodyJson args)

/-- A handler making a sequence of emission calls against the original
`res.json`. -/
def runOriginal (r : Resp) : List (JsValue × List JsValue) → Resp
  | [] => r
  | (b, a) :: rest => runOriginal (originalResJson r b a) rest

/-- The same sequence of emission calls against the wrapped `res.json`. -/
def runWrapped (ctx : LogCtx) (r : Resp) :
    List (JsValue × List JsValue) → LogCtx × Resp
  | [] => (ctx, r)
  | (b, a) :: rest =>
      let p := wrappedResJson ctx r b a
      runWrapped p.1 p.2 rest

/-!
The terminal error-translation middleware

```
app.use((err, _req, res, _next) => {
  const status = err.status || err.statusCode || 500;
  const message = err.message || "Internal Server Error";
  res.status(status).json({ message });
  log(`Error: ${message} (status: ${status})`);
});
```
-/

/-- The shape of an error object as far as the translator inspects it:
optional numeric `status` and `statusCode` fields and an optional string
`message` field (`none` models an absent field / `undefined`). -/
structure ErrObj where
  status : Option Int := none
  statusCode : Option Int := none
  message : Option String := none
deriving Repr, DecidableEq

/-- JavaScript truthiness of an optional numeric field: absent and `0`
are falsy. -/
def numFieldTruthy : Option Int → Bool
  | none => false
  | some n => n != 0

/-- Resolution `err.status || err.statusCode || 500` under JavaScript `||`
semantics (first truthy operand wins). -/
def errStatus (err : ErrObj) : Int :=
  if numFieldTruthy err.status then err.status.getD 0
  else if numFieldTruthy err.statusCode then err.statusCode.getD 0
  else 500

/-- Resolution `err.message || "Internal Server Error"` under JavaScript `||`
semantics (an absent or empty message is falsy). -/
def errMessage (err : ErrObj) : String :=
  match err.message with
  | some m => if m == "" then "Internal Server Error" else m
  | none => "Internal Server Error"

/-- The JSON body `{ message }` the translator sends. -/
def errBody (err : ErrObj) : JsValue :=
  .obj (.cons "message" (.str (errMessage err)) .nil)

/-- The error-translation middleware applied to a response: sets the
resolved status, emits `{ message }` through `res.json`, and returns the
log line it passes to the logger sink. -/
def errorMiddleware (err : ErrObj) (r : Resp) : Resp × String :=
  let status := errStatus err
  let message := errMessage err
  (originalResJson { r with statusCode := status } (errBody err) [],
   "Error: " ++ message ++ " (status: " ++ toString status ++ ")")

/-!
The initialization sequence and the runtime-mode wiring

The body of the `initializationPromise` IIFE, as the ordered trace of
externally visible actions it performs.  `dev` is the value of
`app.get("env") === "development"` and `vercel` the truthiness of
`process.env.VERCEL`.
-/

/-- One externally visible action of the initialization sequence. -/
inductive InitAction where
  | registerRoutes
  | installErrorHandler
  | resolveEnv (dev : Bool)
  | createHttpServer
  | setupVite
  | listen (host : String) (port : Nat)
  | logReadiness (line : String)
  | serveStatic
deriving Repr, DecidableEq

/-- Whether an action binds a local network listener. -/
def isListenAction : InitAction → Bool
  | .listen _ _ => true
  | _ => false

/-- The ordered action trace of the initialization sequence: register
routes, install the error handler, resolve the environment, then the
mode-specific wiring (in development: create the HTTP server and set up
Vite, and bind `localhost:5000` with a readiness log line unless VERCEL
is set; otherwise: serve static files). -/
def initSequence (dev vercel : Bool) : List InitAction :=
  [.registerRoutes, .installErrorHandler, .resolveEnv dev] ++
  (if dev then
    [.createHttpServer, .setupVite] ++
    (if !vercel then
      [.listen "localhost" 5000,
       .logReadiness "Server running at http://localhost:5000"]
     else [])
   else [.serveStatic])

/-- What the module exports by default. -/
inductive ExportedHandler where
  | serverlessWrapped
  | plainApp
deriving Repr, DecidableEq

/-- The default export: `process.env.VERCEL ? serverless(app) : app`. -/
def defaultExport (vercel : Bool) : ExportedHandler :=
  if vercel then .serverlessWrapped else .plainApp

/-!
The bootstrap gate as a transition system

`server/index.ts` creates one promise at module load:
```
let isInitialized = false;
const initializationPromise = (async () => { ... ; isInitialized = true; })();
```
and gates every request on it:
```
app.use(async (req, res, next) => {
  if (!isInitialized) {
    try { await initializationPromise; }
    catch (error) { return next(error); }
  }
  next();
});
```
The event loop is cooperative, so the observable interleavings are the
steps below: the initialization sequence installs the terminal error
translator partway through (`app.use(errorHandler)` runs only after
`await registerRoutes(app)` has succeeded), the promise settles once
(from `pending`), and each request independently arrives, checks the
flag, awaits the settled promise, and either proceeds to route dispatch
(`next()`) or is handed to error handling (`next(error)`).  Which
handler then answers such a request depends on whether the translator
had been installed when initialization failed: a failure inside
`registerRoutes` happens before `app.use(errorHandler)` ran, so
`next(error)` falls through to Express's built-in final handler (an
HTML response), not the module's `{ message }` JSON translator; a
failure in the later wiring steps (`setupVite`/`serveStatic`) happens
after it, so those requests do get the JSON translation.
-/

/-- The state of `initializationPromise`: single-assignment, shared by
all requests. -/
inductive InitState where
  | pending
  | succeeded
  | failed (e : ErrObj)
deriving DecidableEq

/-- The phase an individual in-flight request is in.  `responded` is a
response produced by the module's own error translator (status plus
`{ message }` JSON body); `respondedDefault` is a response produced by
Express's built-in final handler, reached when `next(error)` finds no
installed error middleware — its body is HTML, not the translated
JSON. -/
inductive ReqPhase where
  | atGate
  | awaitingInit
  | dispatched
  | erroring (e : ErrObj)
  | responded (status : Int) (body : JsValue)
  | respondedDefault (e : ErrObj)

/-- Whole-system state: the initialization outcome, the `isInitialized`
flag, whether `app.use(errorHandler)` has run, and the in-flight
requests by id. -/
structure Sys where
  init : InitState
  isInitialized : Bool
  translatorInstalled : Bool
  reqs : Nat → Option ReqPhase

/-- Update the phase of one request. -/
def updReq (f : Nat → Option ReqPhase) (id : Nat) (v : Option ReqPhase) :
    Nat → Option ReqPhase :=
  fun n => if n = id then v else f n

/-- One event-loop step of the gated pipeline. -/
inductive Step : Sys → Sys → Prop where
  /-- A new request arrives and reaches the gate middleware. -/
  | arrive (s : Sys) (id : Nat) :
      s.reqs id = none →
      Step s { s with reqs := updReq s.reqs id (some .atGate) }
  /-- Flag `isInitialized` is already `true`: the request skips the await and
  proceeds straight to route dispatch. -/
  | gateFast (s : Sys) (id : Nat) :
      s.reqs id = some .atGate → s.isInitialized = true →
      Step s { s with reqs := updReq s.reqs id (some .dispatched) }
  /-- Flag `isInitialized` is `false`: the request suspends on
  `await initializationPromise`. -/
  | gateSlow (s : Sys) (id : Nat) :
      s.reqs id = some .atGate → s.isInitialized = false →
      Step s { s with reqs := updReq s.reqs id (some .awaitingInit) }
  /-- The awaited promise is fulfilled: `next()` (route dispatch). -/
  | resumeOk (s : Sys) (id : Nat) :
      s.reqs id = some .awaitingInit → s.init = .succeeded →
      Step s { s with reqs := updReq s.reqs id (some .dispatched) }
  /-- The awaited promise is rejected with the recorded failure:
  `next(error)`. -/
  | resumeErr (s : Sys) (id : Nat) (e : ErrObj) :
      s.reqs id = some .awaitingInit → s.init = .failed e →
      Step s { s with reqs := updReq s.reqs id (some (.erroring e)) }
  /-- The initialization sequence reaches `app.use(errorHandler)`:
  `registerRoutes` has succeeded and the promise is still pending. -/
  | installTranslator (s : Sys) :
      s.init = .pending →
      Step s { s with translatorInstalled := true }
  /-- The initialization sequence completes: it ran in full (so the
  translator is installed), `isInitialized = true`, and the promise is
  fulfilled. -/
  | settleOk (s : Sys) :
      s.init = .pending → s.translatorInstalled = true →
      Step s { s with init := .succeeded, isInitialized := true }
  /-- The initialization sequence throws (before or after the translator
  was installed): the promise is rejected with the error and the flag
  stays `false`. -/
  | settleFail (s : Sys) (e : ErrObj) :
      s.init = .pending →
      Step s { s with init := .failed e }
  /-- The installed error translator handles a forwarded failure: the
  client gets the resolved status and the `{ message }` body. -/
  | respond (s : Sys) (id : Nat) (e : ErrObj) :
      s.reqs id = some (.erroring e) → s.translatorInstalled = true →
      Step s
        { s with reqs :=
            updReq s.reqs id (some (.responded (errStatus e) (errBody e))) }
  /-- No error middleware was installed before the failure: `next(error)`
  falls through to Express's built-in final handler. -/
  | respondDefault (s : Sys) (id : Nat) (e : ErrObj) :
      s.reqs id = some (.erroring e) → s.translatorInstalled = false →
      Step s { s with reqs := updReq s.reqs id (some (.respondedDefault e)) }

/-- The module-load state: promise pending, flag down, no error
middleware installed, no requests. -/
def sys0 : Sys :=
  { init := .pending, isInitialized := false, translatorInstalled := false,
    reqs := fun _ => none }

/-- States the process can actually be in. -/
def SysReachable (s : Sys) : Prop := Relation.ReflTransGen Step sys0 s

/-- The inductive invariant of the gated pipeline: the flag tracks
success, a dispatched request means initialization succeeded, an erroring
request carries exactly the recorded failure, a JSON-translated response
exists only with the translator installed and carries exactly the
translation of the recorded failure, and a default-handler response
exists only with the translator absent and carries the recorded
failure. -/
def SysInv (s : Sys) : Prop :=
  (s.isInitialized = true ↔ s.init = .succeeded) ∧
  (∀ id, s.reqs id = some .dispatched → s.init = .succeeded) ∧
  (∀ id e, s.reqs id = some (.erroring e) → s.init = .failed e) ∧
  (∀ id st b, s.reqs id = some (.responded st b) →
    ∃ e, s.init = .failed e ∧ st = errStatus e ∧ b = errBody e ∧
      s.translatorInstalled = true) ∧
  (∀ id e, s.reqs id = some (.respondedDefault e) →
    s.init = .failed e ∧ s.translatorInstalled = false)

theorem sysInv_sys0 : SysInv sys0 := by
  refine ⟨by simp [sys0], ?_, ?_, ?_, ?_⟩ <;> intro id <;> simp [sys0]

theorem updReq_self (f : Nat → Option ReqPhase) (id : Nat)
    (v : Option ReqPhase) : updReq f id v id = v := by
  simp [updReq]

theorem updReq_other (f : Nat → Option ReqPhase) (id n : Nat)
    (v : Option ReqPhase) (h : n ≠ id) : updReq f id v n = f n := by
  simp [updReq, h]

theorem mem_updReq {f : Nat → Option ReqPhase} {id n : Nat}
    {v : Option ReqPhase} {ph : ReqPhase}
    (h : updReq f id v n = some ph) :
    (n = id ∧ v = some ph) ∨ f n = some ph := by
  by_cases hne : n = id
  · subst hne
    rw [updReq_self] at h
    exact .inl ⟨rfl, h⟩
  · rw [updReq_other _ _ _ _ hne] at h
    exact .inr h

theorem sysInv_step {s s' : Sys} (hInv : SysInv s) (hStep : Step s s') :
    SysInv s' := by
  obtain ⟨hFlag, hDisp, hErr, hResp, hRespD⟩ := hInv
  cases hStep with
  | arrive id hnone =>
      refine ⟨hFlag, ?_, ?_, ?_, ?_⟩
      · intro n hn
        dsimp only at hn
        rcases mem_updReq hn with ⟨rfl, hv⟩ | hold
        · exact absurd hv (by simp)
        · exact hDisp n hold
      · intro n e hn
        dsimp only at hn
        rcases mem_updReq hn with ⟨rfl, hv⟩ | hold
        · exact absurd hv (by simp)
        · exact hErr n e hold
      · intro n st b hn
        dsimp only at hn
        rcases mem_updReq hn with ⟨rfl, hv⟩ | hold
        · exact absurd hv (by simp)
        · exact hResp n st b hold
      · intro n e hn
        dsimp only at hn
        rcases mem_updReq hn with ⟨rfl, hv⟩ | hold
        · exact absurd hv (by simp)
        · exact hRespD n e hold
  | gateFast id hat hfl =>
      have hsucc : s.init = .succeeded := hFlag.mp hfl
      refine ⟨hFlag, ?_, ?_, ?_, ?_⟩
      · intro n hn
        exact hsucc
      · intro n e hn
        dsimp only at hn
        rcases mem_updReq hn with ⟨rfl, hv⟩ | hold
        · exact absurd hv (by simp)
        · exact hErr n e hold
      · intro n st b hn
        dsimp only at hn
        rcases mem_updReq hn with ⟨rfl, hv⟩ | hold
        · exact absurd hv (by simp)
        · exact hResp n st b hold
      · intro n e hn
        dsimp only at hn
        rcases mem_updReq hn with ⟨rfl, hv⟩ | hold
        · exact absurd hv (by simp)
        · exact hRespD n e hold
  | gateSlow id hat hfl =>
      refine ⟨hFlag, ?_, ?_, ?_, ?_⟩
      · intro n hn
        dsimp only at hn
        rcases mem_updReq hn with ⟨rfl, hv⟩ | hold
        · exact absurd hv (by simp)
        · exact hDisp n hold
      · intro n e hn
        dsimp only at hn
        rcases mem_updReq hn with ⟨rfl, hv⟩ | hold
        · exact absurd hv (by simp)
        · exact hErr n e hold
      · intro n st b hn
        dsimp only at hn
        rcases mem_updReq hn with ⟨rfl, hv⟩ | hold
        · exact absurd hv (by simp)
        · exact hResp n st b hold
      · intro n e hn
        dsimp only at hn
        rcases mem_updReq hn with ⟨rfl, hv⟩ | hold
        · exact absurd hv (by simp)
        · exact hRespD n e hold
  | resumeOk id haw hsucc =>
      refine ⟨hFlag, ?_, ?_, ?_, ?_⟩
      · intro n hn
        exact hsucc
      · intro n e hn
        dsimp only at hn
        rcases mem_updReq hn with ⟨rfl, hv⟩ | hold
        · exact absurd hv (by simp)
        · exact hErr n e hold
      · intro n st b hn
        dsimp only at hn
        rcases mem_updReq hn with ⟨rfl, hv⟩ | hold
        · exact absurd hv (by simp)
        · exact hResp n st b hold
      · intro n e hn
        dsimp only at hn
        rcases mem_updReq hn with ⟨rfl, hv⟩ | hold
        · exact absurd hv (by simp)
        · exact hRespD n e hold
  | resumeErr id e haw hfail =>
      refine ⟨hFlag, ?_, ?_, ?_, ?_⟩
      · intro n hn
        dsimp only at hn
        rcases mem_updReq hn with ⟨rfl, hv⟩ | hold
        · exact absurd hv (by simp)
        · exact hDisp n hold
      · intro n e' hn
        dsimp only at hn
        rcases mem_updReq hn with ⟨rfl, hv⟩ | hold
        · cases hv
          exact hfail
        · exact hErr n e' hold
      · intro n st b hn
        dsimp only at hn
        rcases mem_updReq hn with ⟨rfl, hv⟩ | hold
        · exact absurd hv (by simp)
        · exact hResp n st b hold
      · intro n e' hn
        dsimp only at hn
        rcases mem_updReq hn with ⟨rfl, hv⟩ | hold
        · exact absurd hv (by simp)
        · exact hRespD n e' hold
  | installTranslator hpend =>
      refine ⟨hFlag, hDisp, hErr, ?_, ?_⟩
      · intro n st b hn
        obtain ⟨e, he, _, _, _⟩ := hResp n st b hn
        rw [hpend] at he
        exact absurd he (by simp)
      · intro n e hn
        obtain ⟨he, _⟩ := hRespD n e hn
        rw [hpend] at he
        exact absurd he (by simp)
  | settleOk hpend hti =>
      refine ⟨by simp, ?_, ?_, ?_, ?_⟩
      · intro n hn
        rfl
      · intro n e hn
        have h1 := hErr n e hn
        rw [hpend] at h1
        exact absurd h1 (by simp)
      · intro n st b hn
        obtain ⟨e, he, _, _, _⟩ := hResp n st b hn
        rw [hpend] at he
        exact absurd he (by simp)
      · intro n e hn
        obtain ⟨he, _⟩ := hRespD n e hn
        rw [hpend] at he
        exact absurd he (by simp)
  | settleFail e hpend =>
      have hflFalse : s.isInitialized = false := by
        cases hfl : s.isInitialized with
        | true =>
            have h1 := hFlag.mp hfl
            rw [hpend] at h1
            exact absurd h1 (by simp)
        | false => rfl
      refine ⟨by simp [hflFalse], ?_, ?_, ?_, ?_⟩
      · intro n hn
        have h1 := hDisp n hn
        rw [hpend] at h1
        exact absurd h1 (by simp)
      · intro n e' hn
        have h1 := hErr n e' hn
        rw [hpend] at h1
        exact absurd h1 (by simp)
      · intro n st b hn
        obtain ⟨e', he, _, _, _⟩ := hResp n st b hn
        rw [hpend] at he
        exact absurd he (by simp)
      · intro n e' hn
        obtain ⟨he, _⟩ := hRespD n e' hn
        rw [hpend] at he
        exact absurd he (by simp)
  | respond id e herr hti =>
      have hfail : s.init = .failed e := hErr id e herr
      refine ⟨hFlag, ?_, ?_, ?_, ?_⟩
      · intro n hn
        dsimp only at hn
        rcases mem_updReq hn with ⟨rfl, hv⟩ | hold
        · exact absurd hv (by simp)
        · exact hDisp n hold
      · intro n e' hn
        dsimp only at hn
        rcases mem_updReq hn with ⟨rfl, hv⟩ | hold
        · exact absurd hv (by simp)
        · exact hErr n e' hold
      · intro n st b hn
        dsimp only at hn
        rcases mem_updReq hn with ⟨rfl, hv⟩ | hold
        · cases hv
          exact ⟨e, hfail, rfl, rfl, hti⟩
        · exact hResp n st b hold
      · intro n e' hn
        dsimp only at hn
        rcases mem_updReq hn with ⟨rfl, hv⟩ | hold
        · exact absurd hv (by simp)
        · exact hRespD n e' hold
  | respondDefault id e herr htf =>
      have hfail : s.init = .failed e := hErr id e herr
      refine ⟨hFlag, ?_, ?_, ?_, ?_⟩
      · intro n hn
        dsimp only at hn
        rcases mem_updReq hn with ⟨rfl, hv⟩ | hold
        · exact absurd hv (by simp)
        · exact hDisp n hold
      · intro n e' hn
        dsimp only at hn
        rcases mem_updReq hn with ⟨rfl, hv⟩ | hold
        · exact absurd hv (by simp)
        · exact hErr n e' hold
      · intro n st b hn
        dsimp only at hn
        rcases mem_updReq hn with ⟨rfl, hv⟩ | hold
        · exact absurd hv (by simp)
        · exact hResp n st b hold
      · intro n e' hn
        dsimp only at hn
        rcases mem_updReq hn with ⟨rfl, hv⟩ | hold
        · cases hv
          exact ⟨hfail, htf⟩
        · exact hRespD n e' hold

theorem sysInv_reachable {s : Sys} (h : SysReachable s) : SysInv s := by
  induction h with
  | refl => exact sysInv_sys0
  | tail _ hstep ih => exact sysInv_step ih hstep

/-- A settled promise never changes again in one step. -/
theorem init_settled_step {s s' : Sys} (hStep : Step s s')
    (h : s.init ≠ .pending) : s'.init = s.init := by
  cases hStep <;> first
    | rfl
    | (exact absurd (by assumption) h)

/-- A settled promise never changes again. -/
theorem init_settled_star {s s' : Sys}
    (hstar : Relation.ReflTransGen Step s s') (h : s.init ≠ .pending) :
    s'.init = s.init := by
  induction hstar with
  | refl => rfl
  | tail hs hstep ih =>
      rw [init_settled_step hstep (by rw [ih]; exact h)]
      exact ih

/-- Once initialization has failed, one step changes neither the
recorded failure, nor the translator-installation state, nor the set of
dispatched requests. -/
theorem failed_preserved_step {s s' : Sys} {e : ErrObj} (hInv : SysInv s)
    (hfail : s.init = .failed e) (hStep : Step s s') :
    s'.init = .failed e ∧
    s'.translatorInstalled = s.translatorInstalled ∧
    (∀ id, s'.reqs id = some .dispatched → s.reqs id = some .dispatched) := by
  obtain ⟨hFlag, hDisp, hErr, hResp, hRespD⟩ := hInv
  cases hStep with
  | arrive id hnone =>
      refine ⟨hfail, rfl, ?_⟩
      intro n hn
      dsimp only at hn
      rcases mem_updReq hn with ⟨rfl, hv⟩ | hold
      · exact absurd hv (by simp)
      · exact hold
  | gateFast id hat hfl =>
      have h1 := hFlag.mp hfl
      rw [hfail] at h1
      exact absurd h1 (by simp)
  | gateSlow id hat hfl =>
      refine ⟨hfail, rfl, ?_⟩
      intro n hn
      dsimp only at hn
      rcases mem_updReq hn with ⟨rfl, hv⟩ | hold
      · exact absurd hv (by simp)
      · exact hold
  | resumeOk id haw hsucc =>
      rw [hfail] at hsucc
      exact absurd hsucc (by simp)
  | resumeErr id e' haw hfail' =>
      refine ⟨hfail, rfl, ?_⟩
      intro n hn
      dsimp only at hn
      rcases mem_updReq hn with ⟨rfl, hv⟩ | hold
      · exact absurd hv (by simp)
      · exact hold
  | installTranslator hpend =>
      rw [hfail] at hpend
      exact absurd hpend (by simp)
  | settleOk hpend hti =>
      rw [hfail] at hpend
      exact absurd hpend (by simp)
  | settleFail e' hpend =>
      rw [hfail] at hpend
      exact absurd hpend (by simp)
  | respond id e' herr hti =>
      refine ⟨hfail, rfl, ?_⟩
      intro n hn
      dsimp only at hn
      rcases mem_updReq hn with ⟨rfl, hv⟩ | hold
      · exact absurd hv (by simp)
      · exact hold
  | respondDefault id e' herr htf =>
      refine ⟨hfail, rfl, ?_⟩
      intro n hn
      dsimp only at hn
      rcases mem_updReq hn with ⟨rfl, hv⟩ | hold
      · exact absurd hv (by simp)
      · exact hold

/-- Once initialization has failed, any number of steps changes neither
the recorded failure, nor the translator-installation state, nor the
set of dispatched requests, and the invariant keeps holding. -/
theorem failed_preserved_star {s s' : Sys} {e : ErrObj} (hInv : SysInv s)
    (hfail : s.init = .failed e)
    (hstar : Relation.ReflTransGen Step s s') :
    s'.init = .failed e ∧ SysInv s' ∧
    s'.translatorInstalled = s.translatorInstalled ∧
    (∀ id, s'.reqs id = some .dispatched → s.reqs id = some .dispatched) := by
  induction hstar with
  | refl => exact ⟨hfail, hInv, rfl, fun _ h => h⟩
  | tail hs hstep ih =>
      obtain ⟨hfail', hInv', hti', hsub⟩ := ih
      obtain ⟨hfail'', hti'', hsub'⟩ := failed_preserved_step hInv' hfail' hstep
      exact ⟨hfail'', sysInv_step hInv' hstep, hti''.trans hti',
        fun id h => hsub id (hsub' id h)⟩

/-- Once initialization has failed with the error translator installed,
every request that is not already dispatched can be driven (by the
remaining event-loop steps) to the translated JSON error response for
the recorded failure. -/
theorem failed_can_respond_json {s : Sys} {e : ErrObj} (hInv : SysInv s)
    (hfail : s.init = .failed e) (hti : s.translatorInstalled = true)
    {id : Nat} {ph : ReqPhase}
    (hph : s.reqs id = some ph) (hnd : ph ≠ .dispatched) :
    ∃ s', Relation.ReflTransGen Step s s' ∧
      s'.reqs id = some (.responded (errStatus e) (errBody e)) := by
  obtain ⟨hFlag, hDisp, hErr, hResp, hRespD⟩ := hInv
  cases ph with
  | atGate =>
      have hfl : s.isInitialized = false := by
        cases hfl : s.isInitialized with
        | true =>
            have h1 := hFlag.mp hfl
            rw [hfail] at h1
            exact absurd h1 (by simp)
        | false => rfl
      refine ⟨_, Relation.ReflTransGen.tail
          (Relation.ReflTransGen.tail
            (Relation.ReflTransGen.tail Relation.ReflTransGen.refl
              (Step.gateSlow s id hph hfl))
            (Step.resumeErr _ id e (by dsimp only; rw [updReq_self]) hfail))
          (Step.respond _ id e (by dsimp only; rw [updReq_self]) hti), ?_⟩
      dsimp only
      rw [updReq_self]
  | awaitingInit =>
      refine ⟨_, Relation.ReflTransGen.tail
          (Relation.ReflTransGen.tail Relation.ReflTransGen.refl
            (Step.resumeErr s id e hph hfail))
          (Step.respond _ id e (by dsimp only; rw [updReq_self]) hti), ?_⟩
      dsimp only
      rw [updReq_self]
  | dispatched => exact absurd rfl hnd
  | erroring e' =>
      have he : e' = e := by
        have h1 := hErr id e' hph
        rw [hfail] at h1
        exact (InitState.failed.injEq _ _).mp h1.symm
      subst he
      refine ⟨_, Relation.ReflTransGen.tail Relation.ReflTransGen.refl
        (Step.respond s id e' hph hti), ?_⟩
      dsimp only
      rw [updReq_self]
  | responded st b =>
      obtain ⟨e'', hfail'', hst, hb, _⟩ := hResp id st b hph
      rw [hfail] at hfail''
      have he : e = e'' := (InitState.failed.injEq _ _).mp hfail''
      subst he
      subst hst
      subst hb
      exact ⟨s, Relation.ReflTransGen.refl, hph⟩
  | respondedDefault e' =>
      have htf := (hRespD id e' hph).2
      rw [hti] at htf
      exact absurd htf (by simp)

/-- Once initialization has failed with NO error translator installed —
a `registerRoutes` failure — every request that is not already
dispatched can be driven to Express's default final-handler response
for the recorded failure (and, by `SysInv`, a translated JSON response
never exists in such a run). -/
theorem failed_can_respond_default {s : Sys} {e : ErrObj} (hInv : SysInv s)
    (hfail : s.init = .failed e) (htf : s.translatorInstalled = false)
    {id : Nat} {ph : ReqPhase}
    (hph : s.reqs id = some ph) (hnd : ph ≠ .dispatched) :
    ∃ s', Relation.ReflTransGen Step s s' ∧
      s'.reqs id = some (.respondedDefault e) := by
  obtain ⟨hFlag, hDisp, hErr, hResp, hRespD⟩ := hInv
  cases ph with
  | atGate =>
      have hfl : s.isInitialized = false := by
        cases hfl : s.isInitialized with
        | true =>
            have h1 := hFlag.mp hfl
            rw [hfail] at h1
            exact absurd h1 (by simp)
        | false => rfl
      refine ⟨_, Relation.ReflTransGen.tail
          (Relation.ReflTransGen.tail
            (Relation.ReflTransGen.tail Relation.ReflTransGen.refl
              (Step.gateSlow s id hph hfl))
            (Step.resumeErr _ id e (by dsimp only; rw [updReq_self]) hfail))
          (Step.respondDefault _ id e (by dsimp only; rw [updReq_self]) htf), ?_⟩
      dsimp only
      rw [updReq_self]
  | awaitingInit =>
      refine ⟨_, Relation.ReflTransGen.tail
          (Relation.ReflTransGen.tail Relation.ReflTransGen.refl
            (Step.resumeErr s id e hph hfail))
          (Step.respondDefault _ id e (by dsimp only; rw [updReq_self]) htf), ?_⟩
      dsimp only
      rw [updReq_self]
  | dispatched => exact absurd rfl hnd
  | erroring e' =>
      have he : e' = e := by
        have h1 := hErr id e' hph
        rw [hfail] at h1
        exact (InitState.failed.injEq _ _).mp h1.symm
      subst he
      refine ⟨_, Relation.ReflTransGen.tail Relation.ReflTransGen.refl
        (Step.respondDefault s id e' hph htf), ?_⟩
      dsimp only
      rw [updReq_self]
  | responded st b =>
      have hti := (hResp id st b hph).choose_spec.2.2.2
      rw [htf] at hti
      exact absurd hti (by simp)
  | respondedDefault e' =>
      have he : e' = e := by
        have h1 := (hRespD id e' hph).1
        rw [hfail] at h1
        exact (InitState.failed.injEq _ _).mp h1.symm
      subst he
      exact ⟨s, Relation.ReflTransGen.refl, hph⟩

/-!
The claims
-/

/-- C10: for an `/api` request whose last `res.json` body is falsy
(`null`, `0`, `false` or the empty string), the emitted line carries no
` :: JSON` segment — the handler behaves exactly as if `res.json` had
never been called (captured body still `undefined`), and the raw line is
just the base `METHOD PATH STATUS in DURATIONms` part. -/
theorem claim_C10 :
    ∀ method path st d,
      finishHandler method path st d .null =
        finishHandler method path st d .undefined ∧
      finishHandler method path st d (.num 0) =
        finishHandler method path st d .undefined ∧
      finishHandler method path st d (.bool false) =
        finishHandler method path st d .undefined ∧
      finishHandler method path st d (.str "") =
        finishHandler method path st d .undefined ∧
      buildLine method path st d .null =
        .ok (method ++ " " ++ path ++ " " ++ toString st ++
          " in " ++ toString d ++ "ms") :=
  fun _ _ _ _ => ⟨rfl, rfl, rfl, rfl, rfl⟩

/-- C4: refuted on the code — the finish handler is NOT throw-free for
every possible captured body.  With a captured BigInt (reachable when a
handler catches its own `res.json(1n)` `TypeError` and then completes
the response by other means), the unguarded `JSON.stringify` call inside
the `finish` listener throws, so the handler itself throws. -/
theorem claim_C4_bug :
    finishHandler "GET" "/api/x" 200 3 (.bigint 1) =
      .error "TypeError: Do not know how to serialize a BigInt" := by rfl

/-- The path of a concrete `/api` request whose raw log line is exactly
81 characters long. -/
def longPath : String := "/api/" ++ String.mk (List.replicate 61 'a')

/-- C3: refuted on the code — an overflowing log line is NOT truncated
to 79 characters plus one marker character.  The marker string literal
in `server/index.ts` is the three-character double-encoded sequence
`â€¦`, so a raw line of 81 characters is emitted as 82 characters. -/
theorem claim_C3_bug :
    ∃ line, finishHandler "GET" longPath 200 3 .undefined = .ok [line] ∧
      line.length = 82 ∧ line.data.drop 79 = ['â', '€', '¦'] := by
  refine ⟨_, rfl, ?_, ?_⟩ <;> rfl

/-- C5 counterexample: an `/api` request whose response finishes does
NOT always produce a log line — with a captured BigInt body the finish
handler throws before reaching the logger sink, so zero lines are
emitted for this completed response. -/
theorem claim_C5_counterexample :
    (finishHandler "GET" "/api/y" 200 7 (.bigint 2)).isOk = false := by rfl

/-- C5 (amended): requests outside `/api` never produce a line; `/api`
requests produce exactly one line whenever the finish handler completes
without throwing (i.e. the captured body is serializable); and the
scenario `GET /api/health`, status 200, body `{"ok":true}`, 3ms produces
exactly `GET /api/health 200 in 3ms :: {"ok":true}`. -/
theorem claim_C5_amended :
    (∀ method path st d cap, jsStartsWith path "/api" = false →
      finishHandler method path st d cap = .ok []) ∧
    (∀ method path st d cap lines, jsStartsWith path "/api" = true →
      finishHandler method path st d cap = .ok lines → lines.length = 1) ∧
    finishHandler "GET" "/api/health" 200 3
      (.obj (.cons "ok" (.bool true) .nil)) =
      .ok ["GET /api/health 200 in 3ms :: \x7b\"ok\":true\x7d"] := by
  refine ⟨?_, ?_, by rfl⟩
  · intro method path st d cap hne
    simp only [finishHandler, hne, Bool.false_eq_true, if_false]
  · intro method path st d cap lines hapi heq
    simp only [finishHandler, hapi, if_true] at heq
    cases hb : buildLine method path st d cap with
    | ok raw =>
        rw [hb] at heq
        dsimp only at heq
        cases heq
        rfl
    | error err =>
        rw [hb] at heq
        exact Except.noConfusion heq

/-- C5 witness: a non-`/api` request emits nothing, and the scenario
line is a one-element emission. -/
theorem claim_C5_witness :
    finishHandler "OPTIONS" "/assets/logo.png" 200 3 .null = .ok [] ∧
    (["GET /api/health 200 in 3ms :: \x7b\"ok\":true\x7d"] : List String).length = 1 :=
  ⟨claim_C5_amended.1 "OPTIONS" "/assets/logo.png" 200 3 .null (by rfl),
   claim_C5_amended.2.1 "GET" "/api/health" 200 3
     (.obj (.cons "ok" (.bool true) .nil)) _ (by rfl) claim_C5_amended.2.2⟩

/-- C6: the `res.json` wrapper is transparent — over any sequence of
emission calls the client-visible response is exactly what the original
`res.json` produces (and each call returns the original's result) —
and the captured body is the body of the last call (JavaScript
`capturedJsonResponse` starts as `undefined`); in particular, calling
with `B1` then `B2` captures `B2`. -/
theorem claim_C6 :
    (∀ ctx r calls, (runWrapped ctx r calls).2 = runOriginal r calls) ∧
    (∀ ctx r calls, (runWrapped ctx r calls).1.capturedJsonResponse =
      (calls.map Prod.fst).getLastD ctx.capturedJsonResponse) ∧
    (∀ ctx r b1 a1 b2 a2,
      (runWrapped ctx r [(b1, a1), (b2, a2)]).1.capturedJsonResponse = b2 ∧
      (runWrapped ctx r [(b1, a1), (b2, a2)]).2 =
        runOriginal r [(b1, a1), (b2, a2)]) := by
  refine ⟨?_, ?_, fun ctx r b1 a1 b2 a2 => ⟨rfl, rfl⟩⟩
  · intro ctx r calls
    induction calls generalizing ctx r with
    | nil => rfl
    | cons hd tl ih =>
        obtain ⟨b, a⟩ := hd
        exact ih _ _
  · intro ctx r calls
    induction calls generalizing ctx r with
    | nil => rfl
    | cons hd tl ih =>
        obtain ⟨b, a⟩ := hd
        rw [List.map_cons, List.getLastD_cons]
        exact ih _ _

/-- Status-code resolution exactly as the claim words it: the error's
explicit `status` field if PRESENT, else its `statusCode` field, else
500 (no truthiness check). -/
def claimedStatusResolution (err : ErrObj) : Int :=
  match err.status with
  | some n => n
  | none =>
    match err.statusCode with
    | some m => m
    | none => 500

/-- C7 counterexample: the error object with a present-but-zero `status`
field and `statusCode` 404.  The claim's resolution order picks the
present `status` field (0); the code's JavaScript `||` chain skips the
falsy 0 and picks 404. -/
theorem claim_C7_counterexample :
    errStatus { status := some 0, statusCode := some 404 } = 404 ∧
    claimedStatusResolution { status := some 0, statusCode := some 404 } = 0 :=
  ⟨rfl, rfl⟩

/-- Status-code resolution per the amended claim: the `status` field if
present and nonzero, else the `statusCode` field if present and nonzero,
else 500. -/
def amendedStatusResolution (err : ErrObj) : Int :=
  match err.status with
  | some n =>
      if n = 0 then
        match err.statusCode with
        | some m => if m = 0 then 500 else m
        | none => 500
      else n
  | none =>
    match err.statusCode with
    | some m => if m = 0 then 500 else m
    | none => 500

/-- Message resolution per the amended claim: the error's `message` if
present and non-empty, otherwise `"Internal Server Error"`. -/
def amendedMessageResolution (err : ErrObj) : String :=
  match err.message with
  | some m => if m = "" then "Internal Server Error" else m
  | none => "Internal Server Error"

/-- C7 (amended): for every error reaching the terminal translator, the
client-visible status is the `status` field if present and nonzero, else
the `statusCode` field if present and nonzero, else 500; the body sent
is always the JSON object `{ message }` with the message defaulting to
"Internal Server Error" when absent (or empty); the normalized event is
logged; and in particular `{status: 404, message: "not found"}` yields
client status 404 and body `{"message":"not found"}`. -/
theorem claim_C7_amended :
    (∀ err r, (errorMiddleware err r).1.statusCode =
      amendedStatusResolution err) ∧
    (∀ err r, (errorMiddleware err r).1.sent = r.sent ++ [(errBody err, [])]) ∧
    (∀ err, errMessage err = amendedMessageResolution err) ∧
    (∀ err r, (errorMiddleware err r).2 =
      "Error: " ++ errMessage err ++ " (status: " ++
        toString (errStatus err) ++ ")") ∧
    ((errorMiddleware { status := some 404, message := some "not found" }
        {}).1.statusCode = 404 ∧
     (errorMiddleware { status := some 404, message := some "not found" }
        {}).1.sent =
       [(.obj (.cons "message" (.str "not found") .nil), [])] ∧
     jsonStringify
       (errBody { status := some 404, message := some "not found" }) =
       .ok (some "\x7b\"message\":\"not found\"\x7d")) := by
  refine ⟨?_, fun err r => rfl, ?_, fun err r => rfl, rfl, rfl, by rfl⟩
  · intro err r
    obtain ⟨st, sc, msg⟩ := err
    show errStatus _ = _
    cases st with
    | none =>
        cases sc with
        | none => rfl
        | some m =>
            by_cases hm : m = 0 <;>
              simp [errStatus, amendedStatusResolution, numFieldTruthy, hm]
    | some n =>
        by_cases hn : n = 0
        · cases sc with
          | none => simp [errStatus, amendedStatusResolution, numFieldTruthy, hn]
          | some m =>
              by_cases hm : m = 0 <;>
                simp [errStatus, amendedStatusResolution, numFieldTruthy, hn, hm]
        · simp [errStatus, amendedStatusResolution, numFieldTruthy, hn]
  · intro err
    obtain ⟨st, sc, msg⟩ := err
    cases msg with
    | none => rfl
    | some m =>
        by_cases hm : m = "" <;>
          simp [errMessage, amendedMessageResolution, hm]

/-- C1: in every reachable state of the gated pipeline, a request is
dispatched to the routes only when initialization has settled
successfully, a request is handed to error translation only when
initialization has settled with exactly that recorded failure, and the
outcomes observed by concurrent requests never mix: no dispatched
request coexists with an erroring one, and any two erroring requests
carry the same failure. -/
theorem claim_C1 (s : Sys) (h : SysReachable s) :
    (∀ id, s.reqs id = some .dispatched → s.init = .succeeded) ∧
    (∀ id e, s.reqs id = some (.erroring e) → s.init = .failed e) ∧
    (∀ idA idB e, s.reqs idA = some .dispatched →
      s.reqs idB = some (.erroring e) → False) ∧
    (∀ idA idB eA eB, s.reqs idA = some (.erroring eA) →
      s.reqs idB = some (.erroring eB) → eA = eB) := by
  obtain ⟨hFlag, hDisp, hErr, hResp, hRespD⟩ := sysInv_reachable h
  refine ⟨hDisp, hErr, ?_, ?_⟩
  · intro idA idB e hA hB
    have h1 := hDisp idA hA
    have h2 := hErr idB e hB
    rw [h1] at h2
    exact InitState.noConfusion h2
  · intro idA idB eA eB hA hB
    have h1 := hErr idA eA hA
    have h2 := hErr idB eB hB
    rw [h1] at h2
    exact (InitState.failed.injEq _ _).mp h2

/-- The state after the initialization sequence installs the error
translator (promise still pending). -/
def sysT : Sys := { sys0 with translatorInstalled := true }

/-- The state after initialization succeeds. -/
def sysA : Sys := { sysT with init := .succeeded, isInitialized := true }

/-- State `sysA` after request 0 arrives at the gate. -/
def sysB : Sys := { sysA with reqs := updReq sysA.reqs 0 (some .atGate) }

/-- State `sysB` after request 0 takes the fast path to route dispatch. -/
def sysC : Sys := { sysB with reqs := updReq sysB.reqs 0 (some .dispatched) }

/-- C1 witness: a concrete reachable state with a dispatched request,
in which initialization has indeed settled successfully. -/
theorem claim_C1_witness : sysC.init = .succeeded :=
  (claim_C1 sysC
    (Relation.ReflTransGen.tail
      (Relation.ReflTransGen.tail
        (Relation.ReflTransGen.tail
          (Relation.ReflTransGen.tail Relation.ReflTransGen.refl
            (Step.installTranslator sys0 rfl))
          (Step.settleOk sysT rfl rfl))
        (Step.arrive sysA 0 rfl))
      (Step.gateFast sysB 0 rfl rfl))).1 0 rfl

/-- A sample initialization failure thrown by `registerRoutes`, i.e.
before the error translator is installed. -/
def errSample : ErrObj := { message := some "registerRoutes blew up" }

/-- The state after initialization fails with `errSample` (translator
never installed). -/
def sysF : Sys := { sys0 with init := .failed errSample }

/-- State `sysF` after request 0 arrives at the gate. -/
def sysG : Sys := { sysF with reqs := updReq sysF.reqs 0 (some .atGate) }

/-- State `sysG` after request 0 suspends on the rejected promise. -/
def sysH1 : Sys := { sysG with reqs := updReq sysG.reqs 0 (some .awaitingInit) }

/-- State `sysH1` after request 0 resumes with the recorded failure. -/
def sysH2 : Sys :=
  { sysH1 with reqs := updReq sysH1.reqs 0 (some (.erroring errSample)) }

/-- State `sysH2` after Express's default final handler answers
request 0 (no error middleware was installed). -/
def sysH : Sys :=
  { sysH2 with
    reqs := updReq sysH2.reqs 0 (some (.respondedDefault errSample)) }

/-- C2 counterexample: a concrete run refuting the claim's "receives a
translated error response (status code plus JSON body)".  Initialization
fails inside `registerRoutes` — before `app.use(errorHandler)` has run —
so the translator is never installed; the waiting request is finalized
by Express's built-in final handler (an HTML response), not by the
`{ message }` JSON translation. -/
theorem claim_C2_counterexample :
    SysReachable sysH ∧ sysH.init = .failed errSample ∧
    sysH.translatorInstalled = false ∧
    sysH.reqs 0 = some (.respondedDefault errSample) :=
  ⟨Relation.ReflTransGen.tail
    (Relation.ReflTransGen.tail
      (Relation.ReflTransGen.tail
        (Relation.ReflTransGen.tail
          (Relation.ReflTransGen.tail Relation.ReflTransGen.refl
            (Step.settleFail sys0 errSample rfl))
          (Step.arrive sysF 0 rfl))
        (Step.gateSlow sysG 0 rfl rfl))
      (Step.resumeErr sysH1 0 errSample rfl rfl))
    (Step.respondDefault sysH2 0 errSample rfl rfl),
   rfl, rfl, rfl⟩

/-- C2 (amended): once initialization has failed with a recorded error,
the failure is permanent (never re-attempted: the outcome and the
translator-installation state never change again), no further request is
ever dispatched, and every request handed to error handling — whether
already waiting or arriving later — carries exactly the recorded
failure.  Every JSON-translated response in the run is exactly the
resolved status plus `{ message }` body for that failure, and every
default-handler response carries that failure.  If the failure occurred
after the error translator was installed (a `setupVite`/`serveStatic`
failure), every request not already dispatched can be driven to the
translated JSON response; if it occurred before (a `registerRoutes`
failure), every such request can be driven only to Express's default
final-handler response instead. -/
theorem claim_C2_amended (s : Sys) (e : ErrObj) (h : SysReachable s)
    (hfail : s.init = .failed e) :
    (∀ s', Relation.ReflTransGen Step s s' →
      s'.init = .failed e ∧
      s'.translatorInstalled = s.translatorInstalled ∧
      (∀ id e', s'.reqs id = some (.erroring e') → e' = e) ∧
      (∀ id st b, s'.reqs id = some (.responded st b) →
        st = errStatus e ∧ b = errBody e) ∧
      (∀ id e', s'.reqs id = some (.respondedDefault e') → e' = e) ∧
      (∀ id, s'.reqs id = some .dispatched →
        s.reqs id = some .dispatched)) ∧
    (s.translatorInstalled = true →
      ∀ id ph, s.reqs id = some ph → ph ≠ .dispatched →
        ∃ s', Relation.ReflTransGen Step s s' ∧
          s'.reqs id = some (.responded (errStatus e) (errBody e))) ∧
    (s.translatorInstalled = false →
      ∀ id ph, s.reqs id = some ph → ph ≠ .dispatched →
        ∃ s', Relation.ReflTransGen Step s s' ∧
          s'.reqs id = some (.respondedDefault e)) := by
  have hInv := sysInv_reachable h
  refine ⟨?_, ?_, ?_⟩
  · intro s' hstar
    obtain ⟨hfail', hInv', hti', hsub⟩ :=
      failed_preserved_star hInv hfail hstar
    refine ⟨hfail', hti', ?_, ?_, ?_, hsub⟩
    · intro id e' he'
      have h1 := hInv'.2.2.1 id e' he'
      rw [hfail'] at h1
      exact (InitState.failed.injEq _ _).mp h1.symm
    · intro id st b hr
      obtain ⟨e'', he'', hst, hb, _⟩ := hInv'.2.2.2.1 id st b hr
      rw [hfail'] at he''
      have he : e = e'' := (InitState.failed.injEq _ _).mp he''
      subst he
      exact ⟨hst, hb⟩
    · intro id e' hr
      have h1 := (hInv'.2.2.2.2 id e' hr).1
      rw [hfail'] at h1
      exact (InitState.failed.injEq _ _).mp h1.symm
  · intro hti id ph hph hnd
    exact failed_can_respond_json hInv hfail hti hph hnd
  · intro htf id ph hph hnd
    exact failed_can_respond_default hInv hfail htf hph hnd

/-- A failure thrown after the translator was installed: the
mode-specific wiring blows up. -/
def errVite : ErrObj := { message := some "setupVite blew up" }

/-- The state after the translator is installed and the wiring then
fails with `errVite`. -/
def sysV : Sys := { sysT with init := .failed errVite }

/-- State `sysV` after request 0 arrives at the gate. -/
def sysW : Sys := { sysV with reqs := updReq sysV.reqs 0 (some .atGate) }

/-- C2 witness: in a concrete reachable state that failed after the
translator was installed, with one waiting request, the event loop can
drive that request to the translated JSON response for the recorded
failure. -/
theorem claim_C2_witness :
    ∃ s', Relation.ReflTransGen Step sysW s' ∧
      s'.reqs 0 = some (.responded (errStatus errVite) (errBody errVite)) :=
  (claim_C2_amended sysW errVite
    (Relation.ReflTransGen.tail
      (Relation.ReflTransGen.tail
        (Relation.ReflTransGen.tail Relation.ReflTransGen.refl
          (Step.installTranslator sys0 rfl))
        (Step.settleFail sysT errVite rfl))
      (Step.arrive sysV 0 rfl))
    rfl).2.1 rfl 0 .atGate rfl (by simp)

/-- C8: the initialization sequence runs its steps in the claimed order
(register routes, then install the error translator, then resolve the
runtime mode, then the mode-specific wiring), performs no duplicate
route registration or listener bind, and the initialization outcome is
single-assignment: once it has left `pending` it never changes again,
under one step or any number of steps, regardless of the interleaved
request traffic. -/
theorem claim_C8 :
    (∀ dev vercel : Bool,
      (initSequence dev vercel).take 3 =
        [.registerRoutes, .installErrorHandler, .resolveEnv dev] ∧
      (initSequence dev vercel).count .registerRoutes = 1 ∧
      (initSequence dev vercel).count .installErrorHandler = 1 ∧
      (initSequence dev vercel).countP isListenAction ≤ 1) ∧
    (∀ s s' : Sys, Step s s' → s.init ≠ .pending → s'.init = s.init) ∧
    (∀ s s' : Sys, Relation.ReflTransGen Step s s' → s.init ≠ .pending →
      s'.init = s.init) := by
  refine ⟨?_, ?_, ?_⟩
  · intro dev vercel
    cases dev <;> cases vercel <;> exact ⟨rfl, by decide, by decide, by decide⟩
  · exact fun s s' hstep h => init_settled_step hstep h
  · exact fun s s' hstar h => init_settled_star hstar h

/-- C8 witness: the development non-serverless trace starts with the
three claimed steps, and in a concrete settled state a further step
leaves the outcome untouched. -/
theorem claim_C8_witness :
    (initSequence true false).take 3 =
      [.registerRoutes, .installErrorHandler, .resolveEnv true] ∧
    sysB.init = sysA.init :=
  ⟨(claim_C8.1 true false).1,
   claim_C8.2.2 sysA sysB
     (Relation.ReflTransGen.tail Relation.ReflTransGen.refl
       (Step.arrive sysA 0 rfl))
     (by decide)⟩

/-- C9: when the VERCEL flag is set, no runtime mode ever binds a local
listener and the module's default export is the serverless-wrapped
pipeline; when it is absent and the environment is development, the
sequence binds `localhost:5000`, logs the readiness line, and the
default export is the plain pipeline. -/
theorem claim_C9 :
    (∀ dev : Bool, (initSequence dev true).countP isListenAction = 0) ∧
    defaultExport true = .serverlessWrapped ∧
    InitAction.listen "localhost" 5000 ∈ initSequence true false ∧
    InitAction.logReadiness "Server running at http://localhost:5000" ∈
      initSequence true false ∧
    defaultExport false = .plainApp := by
  refine ⟨?_, rfl, by decide, by decide, rfl⟩
  intro dev
  cases dev <;> rfl
